import Mathlib

/-!
Verification development for the anchorPDS record server.

We give a shallow embedding of the three core components:

* the check-in record validator (`validateCheckinRecord` and its helpers,
  from `shared/types.ts`, whose full source is reproduced in
  `src/docs/anchor_pds_implementation_plan.md`),
* the record store's read operations (`getCheckinByUri`,
  `getCheckinsByAuthor`, `getGlobalFeed`, from
  `backend/database/queries.ts`),
* the token-authentication cache (`validateToken`, from `shared/auth.ts`).

Modelling conventions:

* JavaScript values are the inductive `JSValue`; member access on a
  non-object yields `undefined` (modelled as `none`).
* The numbers produced by `parseFloat` are exact decimals `DecNum`
  (an integer numerator over a power-of-ten denominator), ordered by
  cross-multiplication; `DecNum.lt_iff_toRat` proves this order agrees
  with the rational value, so the range tests in `validateGeoLocation`
  are the numeric comparisons of the source.  `NaN` is the `none` of
  `Option DecNum`; the infinities are not representable, which is
  invisible to the embedded code: the only use of a parsed number is the
  range test, where `NaN`/`Infinity` and "out of range" produce the
  identical error.
* `parseFloat` is modelled concretely (`jsParseFloat`): longest numeric
  prefix after optional leading whitespace and sign, with optional
  fraction and exponent; no digit in the mantissa parses to `none` (JS
  `NaN`).  The literal `Infinity` is modelled as `none`; as noted above,
  this is indistinguishable through the embedded validator.
* `Date.parse` and `JSON.parse` are external library functions; the
  embedded code is parameterized over them (`dateParse : String → Bool`,
  `parse : String → Option (List LocationItem)`), since no claim depends
  on their internals, only on success/failure.
* Exceptions (`throw new Error`) become `Except String`; the string is
  the JS error message.
* `String.length` counts characters where JS counts UTF-16 code units;
  the two agree on all inputs appearing in the claims and tests.
* SQL `LIMIT` receives `Math.min(limit, 100)`; `limit` is modelled as an
  integer, because the route callers apply `parseInt` with no lower
  bound, so a request such as `?limit=-5` reaches the query layer as a
  negative number.  SQLite treats a negative `LIMIT` as unbounded, and
  the model reproduces this.
-/

/-- An exact decimal number: the value is `num / 10 ^ den10`.  This is
the codomain of the `parseFloat` model. -/
structure DecNum where
  num : ℤ
  den10 : ℕ
deriving DecidableEq

/-- The rational value of a `DecNum`. -/
def DecNum.toRat (a : DecNum) : ℚ := (a.num : ℚ) / (10 : ℚ) ^ a.den10

/-- An integer as a `DecNum`. -/
def DecNum.ofInt (n : ℤ) : DecNum := ⟨n, 0⟩

/-- Numeric order on exact decimals, by cross-multiplication. -/
instance : LT DecNum := ⟨fun a b => a.num * 10 ^ b.den10 < b.num * 10 ^ a.den10⟩

instance (a b : DecNum) : Decidable (a < b) :=
  inferInstanceAs (Decidable (a.num * 10 ^ b.den10 < b.num * 10 ^ a.den10))

theorem DecNum.lt_def (a b : DecNum) :
    a < b ↔ a.num * 10 ^ b.den10 < b.num * 10 ^ a.den10 := Iff.rfl

/-- The cross-multiplication order is the order of the rational values:
the range tests of the embedded validator are genuine numeric
comparisons. -/
theorem DecNum.lt_iff_toRat (a b : DecNum) : a < b ↔ a.toRat < b.toRat := by
  rw [DecNum.lt_def, DecNum.toRat, DecNum.toRat,
    div_lt_div_iff₀ (by positivity) (by positivity)]
  constructor
  · intro h
    exact_mod_cast h
  · intro h
    exact_mod_cast h

/-- A JavaScript value, as far as the embedded code observes it. -/
inductive JSValue where
  | null : JSValue
  | bool (b : Bool) : JSValue
  | num (q : DecNum) : JSValue
  | str (s : String) : JSValue
  | arr (xs : List JSValue) : JSValue
  | obj (fields : List (String × JSValue)) : JSValue

/-- First-match association lookup, as JS property access on an object. -/
def lookupField : List (String × JSValue) → String → Option JSValue
  | [], _ => none
  | (k, v) :: rest, name => if k = name then some v else lookupField rest name

/-- JS member access `v.name`: a property of an object, `undefined`
(`none`) otherwise.  (On `null` JS would throw; the embedded code only
dereferences values it has established to be objects, except for location
array elements, where a non-object element is rejected either way.) -/
def getField : JSValue → String → Option JSValue
  | .obj fields, name => lookupField fields name
  | _, _ => none

/-- JS truthiness. -/
def truthy : JSValue → Bool
  | .null => false
  | .bool b => b
  | .num q => decide (q.num ≠ 0)
  | .str s => !s.isEmpty
  | .arr _ => true
  | .obj _ => true

/-- Truthiness of a possibly-`undefined` value. -/
def truthyOpt : Option JSValue → Bool
  | none => false
  | some v => truthy v

/-- The check `x && typeof x === "string"` used for required string
fields: yields the string exactly when the value is a non-empty string. -/
def asTruthyString : Option JSValue → Option String
  | some (.str s) => if s.isEmpty then none else some s
  | _ => none

/-- `typeof record === "object" && record !== null` (arrays included:
`typeof [] === "object"`). -/
def isObjectLike : JSValue → Bool
  | .obj _ => true
  | .arr _ => true
  | _ => false

/-- Rendering of a JS value inside a template literal.  Only the string
case is reachable with a meaningful result in the embedded code (the
`Unsupported location type` message); other cases get a fixed tag. -/
def jsDisplay : JSValue → String
  | .str s => s
  | .bool b => if b then "true" else "false"
  | .null => "null"
  | .num _ => "[number]"
  | .arr _ => "[array]"
  | .obj _ => "[object Object]"

/-- Decimal digits to a natural number. -/
def digitsToNat (ds : List Char) : ℕ :=
  ds.foldl (fun n c => 10 * n + (c.toNat - 48)) 0

/-- JS whitespace stripped by `parseFloat`. -/
def isJsSpace (c : Char) : Bool :=
  c = ' ' || c = '\t' || c = '\n' || c = '\r'

/-- Optional sign and digits after `e`/`E`; an incomplete exponent
contributes nothing (JS backtracks to the mantissa). -/
def jsParseExp (r : List Char) : ℤ :=
  match r with
  | '+' :: r2 => (digitsToNat (r2.takeWhile Char.isDigit) : ℤ)
  | '-' :: r2 =>
      if (r2.takeWhile Char.isDigit).isEmpty then 0
      else -(digitsToNat (r2.takeWhile Char.isDigit) : ℤ)
  | r2 => (digitsToNat (r2.takeWhile Char.isDigit) : ℤ)

/-- `parseFloat` on a sign-stripped character list: longest prefix of the
form `digits [. digits] [e|E [sign] digits]`; `none` when no digit occurs
in the mantissa (JS `NaN`). -/
def jsParseFloatCore (cs : List Char) : Option DecNum :=
  let ip := cs.takeWhile Char.isDigit
  let cs2 := cs.dropWhile Char.isDigit
  let fp := match cs2 with
    | '.' :: r => r.takeWhile Char.isDigit
    | _ => []
  let cs3 := match cs2 with
    | '.' :: r => r.dropWhile Char.isDigit
    | _ => cs2
  if ip.isEmpty && fp.isEmpty then none
  else
    let base : ℤ := (digitsToNat (ip ++ fp) : ℤ)
    let exp : ℤ := match cs3 with
      | 'e' :: r => jsParseExp r
      | 'E' :: r => jsParseExp r
      | _ => 0
    if exp ≥ 0 then some ⟨base * 10 ^ exp.toNat, fp.length⟩
    else some ⟨base, fp.length + (-exp).toNat⟩

/-- JS `parseFloat`: skip leading whitespace, optional sign, then the
longest numeric prefix; `none` models `NaN`. -/
def jsParseFloat (s : String) : Option DecNum :=
  match s.toList.dropWhile isJsSpace with
  | '+' :: r => jsParseFloatCore r
  | '-' :: r => (jsParseFloatCore r).map (fun d => ⟨-d.num, d.den10⟩)
  | r => jsParseFloatCore r

/-- A validated geo location: the original coordinate strings, echoed
verbatim (`community.lexicon.location.geo`). -/
structure GeoLocation where
  latitude : String
  longitude : String
deriving DecidableEq

/-- A validated address location (`community.lexicon.location.address`);
every field optional. -/
structure AddressLocation where
  street : Option String := none
  locality : Option String := none
  region : Option String := none
  country : Option String := none
  postalCode : Option String := none
  name : Option String := none
deriving DecidableEq

/-- A validated location item, discriminated by `$type`. -/
inductive LocationItem where
  | geo (g : GeoLocation) : LocationItem
  | address (a : AddressLocation) : LocationItem
deriving DecidableEq

/-- A validated check-in record.  `$type` is the constant
`"app.dropanchor.checkin"` (see `CheckinRecord.toJS`). -/
structure CheckinRecord where
  text : String
  createdAt : String
  locations : Option (List LocationItem) := none
  category : Option String := none
  categoryGroup : Option String := none
  categoryIcon : Option String := none
deriving DecidableEq

deriving instance DecidableEq for Except

/-- `validateGeoLocation` from `shared/types.ts`: both coordinates must be
truthy strings whose `parseFloat` lies in range; the original strings are
echoed into the result. -/
def validateGeoLocation (loc : JSValue) : Except String GeoLocation :=
  match asTruthyString (getField loc "latitude") with
  | none => .error "geo location must have latitude as string"
  | some latS =>
    match asTruthyString (getField loc "longitude") with
    | none => .error "geo location must have longitude as string"
    | some lngS =>
      match jsParseFloat latS with
      | none => .error "latitude must be a valid number between -90 and 90"
      | some lat =>
        if lat < DecNum.ofInt (-90) ∨ DecNum.ofInt 90 < lat then
          .error "latitude must be a valid number between -90 and 90"
        else
          match jsParseFloat lngS with
          | none => .error "longitude must be a valid number between -180 and 180"
          | some lng =>
            if lng < DecNum.ofInt (-180) ∨ DecNum.ofInt 180 < lng then
              .error "longitude must be a valid number between -180 and 180"
            else
              .ok ⟨latS, lngS⟩

/-- One optional free-text field of `validateAddressLocation`: absent is
fine, a present non-string rejects. -/
def validateAddressField (loc : JSValue) (name : String) : Except String (Option String) :=
  match getField loc name with
  | none => .ok none
  | some (.str s) => .ok (some s)
  | some _ => .error (name ++ " must be a string")

/-- `validateAddressLocation` from `shared/types.ts`: all six fields
optional, each must be a string when present. -/
def validateAddressLocation (loc : JSValue) : Except String AddressLocation :=
  match validateAddressField loc "street" with
  | .error e => .error e
  | .ok street =>
    match validateAddressField loc "locality" with
    | .error e => .error e
    | .ok locality =>
      match validateAddressField loc "region" with
      | .error e => .error e
      | .ok region =>
        match validateAddressField loc "country" with
        | .error e => .error e
        | .ok country =>
          match validateAddressField loc "postalCode" with
          | .error e => .error e
          | .ok postalCode =>
            match validateAddressField loc "name" with
            | .error e => .error e
            | .ok nm =>
              .ok ⟨street, locality, region, country, postalCode, nm⟩

/-- One element of the `locations` array: requires a truthy `$type`,
dispatches on the two recognized tags (JS `===` on strings), rejects any
other tag naming it. -/
def validateLocationItem (loc : JSValue) : Except String LocationItem :=
  match getField loc "$type" with
  | none => .error "Each location must have a $type field"
  | some tv =>
    if !truthy tv then .error "Each location must have a $type field"
    else
      match tv with
      | .str "community.lexicon.location.geo" => (validateGeoLocation loc).map .geo
      | .str "community.lexicon.location.address" => (validateAddressLocation loc).map .address
      | v => .error ("Unsupported location type: " ++ jsDisplay v)

/-- The `for (const location of record.locations)` loop: elements are
validated left to right, the first failure aborts. -/
def validateLocationList : List JSValue → Except String (List LocationItem)
  | [] => .ok []
  | x :: xs =>
    match validateLocationItem x with
    | .error e => .error e
    | .ok it =>
      match validateLocationList xs with
      | .error e => .error e
      | .ok rest => .ok (it :: rest)

/-- The `text` checks: `!record.text || typeof record.text !== "string"`,
then the 300-character ceiling. -/
def validateText (record : JSValue) : Except String String :=
  match asTruthyString (getField record "text") with
  | none => .error "Record must have a text field"
  | some t =>
    if t.length > 300 then .error "text must be 300 characters or less"
    else .ok t

/-- The `createdAt` checks: presence as a truthy string, then
`Date.parse` success (the embedded code is parameterized over the
timestamp parser). -/
def validateCreatedAt (dateParse : String → Bool) (record : JSValue) : Except String String :=
  match asTruthyString (getField record "createdAt") with
  | none => .error "Record must have a createdAt field"
  | some c =>
    if dateParse c then .ok c
    else .error "createdAt must be a valid ISO timestamp"

/-- The `locations` field: absent is fine; a present non-array rejects;
elements are validated in order, and the validated list is kept in the
output only when non-empty. -/
def validateLocationsField (record : JSValue) : Except String (Option (List LocationItem)) :=
  match getField record "locations" with
  | none => .ok none
  | some (.arr elems) =>
    match validateLocationList elems with
    | .error e => .error e
    | .ok ls => .ok (if ls.length > 0 then some ls else none)
  | some _ => .error "locations must be an array"

/-- One optional category field: a present value must be a non-empty
string of at most `cap` characters. -/
def validateCategoryField (record : JSValue) (name : String) (cap : ℕ) :
    Except String (Option String) :=
  match getField record name with
  | none => .ok none
  | some (.str s) =>
    if s.length = 0 then .error (name ++ " must be a non-empty string")
    else if s.length > cap then
      .error (name ++ " must be " ++ toString cap ++ " characters or less")
    else .ok (some s)
  | some _ => .error (name ++ " must be a non-empty string")

/-- `validateCheckinRecord` from `shared/types.ts`: sequential checks,
first `throw` wins; on success a fresh record holding only the recognized
fields. -/
def validateCheckinRecord (dateParse : String → Bool) (record : JSValue) :
    Except String CheckinRecord :=
  if isObjectLike record then
    match validateText record with
    | .error e => .error e
    | .ok text =>
      match validateCreatedAt dateParse record with
      | .error e => .error e
      | .ok createdAt =>
        match validateLocationsField record with
        | .error e => .error e
        | .ok locs =>
          match validateCategoryField record "category" 50 with
          | .error e => .error e
          | .ok cat =>
            match validateCategoryField record "categoryGroup" 50 with
            | .error e => .error e
            | .ok catGroup =>
              match validateCategoryField record "categoryIcon" 10 with
              | .error e => .error e
              | .ok catIcon =>
                .ok { text := text, createdAt := createdAt, locations := locs,
                      category := cat, categoryGroup := catGroup,
                      categoryIcon := catIcon }
  else .error "Record must be an object"

example : jsParseFloat "45abc" = some ⟨45, 0⟩ := by decide
example : jsParseFloat "-74.0060xyz" = some ⟨-740060, 4⟩ := by decide
example : jsParseFloat "" = none := by decide
example : jsParseFloat "1e2x" = some ⟨100, 0⟩ := by decide
example : jsParseFloat "." = none := by decide
example : jsParseFloat ".5" = some ⟨5, 1⟩ := by decide
example : jsParseFloat "1e" = some ⟨1, 0⟩ := by decide
example : jsParseFloat "1E-2" = some ⟨1, 2⟩ := by decide
example : (⟨45, 0⟩ : DecNum) < DecNum.ofInt 90 := by decide
example :
    validateCheckinRecord (fun _ => true)
      (.obj [("text", .str "hi"), ("createdAt", .str "2025-01-01T00:00:00Z"),
             ("locations", .arr [])]) =
      .ok { text := "hi", createdAt := "2025-01-01T00:00:00Z" } := by decide
example :
    validateCheckinRecord (fun _ => true) (.obj [("text", .str "")]) =
      .error "Record must have a text field" := by decide
example :
    validateGeoLocation
      (.obj [("$type", .str "community.lexicon.location.geo"),
             ("latitude", .str "45abc"), ("longitude", .str "-74.0060xyz")]) =
      .ok ⟨"45abc", "-74.0060xyz"⟩ := by decide
example :
    validateGeoLocation
      (.obj [("$type", .str "community.lexicon.location.geo"),
             ("latitude", .str "91"), ("longitude", .str "0")]) =
      .error "latitude must be a valid number between -90 and 90" := by decide

/-! ## Record store (`backend/database/queries.ts`) -/

/-- One row of the `anchor_checkins_v3` table, in column order. -/
structure DBRow where
  id : String
  authorDid : String
  text : String
  createdAt : String
  locations : Option String
  category : Option String
  categoryGroup : Option String
  categoryIcon : Option String
  uri : String
  cid : Option String
deriving DecidableEq

/-- A stored check-in as returned by the read path. -/
structure StoredCheckin where
  id : String
  authorDid : String
  text : String
  createdAt : String
  locations : Option (List LocationItem)
  category : Option String
  categoryGroup : Option String
  categoryIcon : Option String
  uri : String
  cid : Option String
deriving DecidableEq

/-- The `row[n] ? String(row[n]) : null` idiom on a nullable text column:
an empty string is falsy and is treated as absent. -/
def sqlTruthyStr : Option String → Option String
  | none => none
  | some s => if s.isEmpty then none else some s

/-- The row-to-record conversion shared by the three read operations.
`JSON.parse` is modelled by the `parse` parameter; the `try`/`catch`
around it leaves `locations` `undefined` on failure. -/
def rowToStoredCheckin (parse : String → Option (List LocationItem)) (row : DBRow) :
    StoredCheckin :=
  { id := row.id
    authorDid := row.authorDid
    text := row.text
    createdAt := row.createdAt
    locations := match sqlTruthyStr row.locations with
      | some s => parse s
      | none => none
    category := sqlTruthyStr row.category
    categoryGroup := sqlTruthyStr row.categoryGroup
    categoryIcon := sqlTruthyStr row.categoryIcon
    uri := row.uri
    cid := sqlTruthyStr row.cid }

/-- Insert one row into a list sorted by `createdAt` descending. -/
def insertDesc (r : DBRow) : List DBRow → List DBRow
  | [] => [r]
  | x :: xs => if x.createdAt ≤ r.createdAt then r :: x :: xs else x :: insertDesc r xs

/-- `ORDER BY createdAt DESC` (ties in unspecified order, as in SQL). -/
def sortByCreatedAtDesc : List DBRow → List DBRow
  | [] => []
  | x :: xs => insertDesc x (sortByCreatedAtDesc xs)

/-- The row selection of `getGlobalFeed`: optional `createdAt < cursor`
filter, then `ORDER BY createdAt DESC`. -/
def selectGlobal (db : List DBRow) (cursor : Option String) : List DBRow :=
  sortByCreatedAtDesc (match cursor with
    | some c => db.filter (fun r => r.createdAt < c)
    | none => db)

/-- The row selection of `getCheckinsByAuthor`: `authorDid` filter,
optional cursor filter, then `ORDER BY createdAt DESC`. -/
def selectByAuthor (db : List DBRow) (authorDid : String) (cursor : Option String) :
    List DBRow :=
  sortByCreatedAtDesc (match cursor with
    | some c => (db.filter (fun r => r.authorDid = authorDid)).filter
        (fun r => r.createdAt < c)
    | none => db.filter (fun r => r.authorDid = authorDid))

/-- `getGlobalFeed` from `queries.ts`: `maxLimit = Math.min(limit, 100)`
is bound to `LIMIT ?` over the global selection.  `limit` is an integer
(the route's `parseInt` has no lower bound); SQLite treats a negative
`LIMIT` as unbounded, so a negative `maxLimit` returns every selected
row. -/
def getGlobalFeed (parse : String → Option (List LocationItem)) (db : List DBRow)
    (limit : ℤ) (cursor : Option String) : List StoredCheckin :=
  (if min limit 100 < 0 then selectGlobal db cursor
   else (selectGlobal db cursor).take (min limit 100).toNat).map
    (rowToStoredCheckin parse)

/-- `getCheckinsByAuthor` from `queries.ts`: caller-supplied `LIMIT`,
no further cap at this layer. -/
def getCheckinsByAuthor (parse : String → Option (List LocationItem)) (db : List DBRow)
    (authorDid : String) (limit : ℕ) (cursor : Option String) : List StoredCheckin :=
  ((selectByAuthor db authorDid cursor).take limit).map (rowToStoredCheckin parse)

/-- `getCheckinByUri` from `queries.ts`: first row with the given `uri`
(`result.rows[0]`), converted; `null` when none matches. -/
def getCheckinByUri (parse : String → Option (List LocationItem)) (db : List DBRow)
    (uri : String) : Option StoredCheckin :=
  ((db.filter (fun r => r.uri = uri)).head?).map (rowToStoredCheckin parse)

/-! ## Identity cache (`shared/auth.ts`) -/

/-- A resolved identity: `did` plus optional handle. -/
structure AuthContext where
  did : String
  handle : Option String
deriving DecidableEq

/-- One `didCache` entry: identity plus millisecond expiry stamp. -/
structure CacheEntry where
  did : String
  handle : Option String
  expires : ℤ
deriving DecidableEq

/-- The in-memory `didCache` map, token to entry. -/
abbrev AuthCache := List (String × CacheEntry)

/-- `didCache.get`. -/
def cacheGet : AuthCache → String → Option CacheEntry
  | [], _ => none
  | (k, v) :: rest, token => if k = token then some v else cacheGet rest token

/-- `didCache.set`: overwrite the binding for the token (JS `Map.set`;
only lookup order matters to the embedded code). -/
def cacheSet (c : AuthCache) (token : String) (e : CacheEntry) : AuthCache :=
  (token, e) :: c.filter (fun p => p.1 ≠ token)

/-- `CACHE_TTL = 3600000` milliseconds (one hour). -/
def CACHE_TTL : ℤ := 3600000

/-- The host loop of `validateToken`: each configured PDS host either
produces a session (`some ctx`: HTTP 200) or does not (`none`: non-2xx
response or a thrown transport error — both `continue`).  The first
success is cached with `expires = now + CACHE_TTL` and returned; if every
host fails the cache is left untouched and `null` is returned. -/
def tryPdsHosts (cache : AuthCache) (now : ℤ) (token : String) :
    List (Option AuthContext) → Option AuthContext × AuthCache
  | [] => (none, cache)
  | none :: rest => tryPdsHosts cache now token rest
  | some ctx :: _ => (some ctx, cacheSet cache token ⟨ctx.did, ctx.handle, now + CACHE_TTL⟩)

/-- `validateToken` from `shared/auth.ts`: a cached entry with
`expires > Date.now()` is returned without network traffic; otherwise the
host loop runs.  `now` is the current millisecond clock and `hosts` the
ordered outcomes of the session lookups. -/
def validateToken (cache : AuthCache) (now : ℤ) (hosts : List (Option AuthContext))
    (token : String) : Option AuthContext × AuthCache :=
  match cacheGet cache token with
  | some e =>
    if now < e.expires then (some ⟨e.did, e.handle⟩, cache)
    else tryPdsHosts cache now token hosts
  | none => tryPdsHosts cache now token hosts

/-! ## Supporting lemmas -/

theorem String.isEmpty_false_of_ne {s : String} (h : s ≠ "") : s.isEmpty = false := by
  cases he : s.isEmpty
  · rfl
  · exact absurd ((String.isEmpty_iff s).mp he) h

theorem asTruthyString_some {v : Option JSValue} {t : String}
    (h : asTruthyString v = some t) : v = some (.str t) ∧ t ≠ "" := by
  match v with
  | none => exact absurd h (by simp [asTruthyString])
  | some (.str s) =>
    by_cases he : s.isEmpty
    · rw [asTruthyString, if_pos he] at h
      exact absurd h (by simp)
    · rw [asTruthyString, if_neg he] at h
      cases h
      exact ⟨rfl, fun hc => he (by rw [hc]; rfl)⟩
  | some .null => exact absurd h (by simp [asTruthyString])
  | some (.bool b) => exact absurd h (by simp [asTruthyString])
  | some (.num q) => exact absurd h (by simp [asTruthyString])
  | some (.arr xs) => exact absurd h (by simp [asTruthyString])
  | some (.obj fs) => exact absurd h (by simp [asTruthyString])

theorem asTruthyString_of_ne {t : String} (h : t ≠ "") :
    asTruthyString (some (.str t)) = some t := by
  rw [asTruthyString, if_neg]
  intro hc
  exact h ((String.isEmpty_iff t).mp hc)

/-! ## C1: the global feed cap, and its negative-limit bypass -/

/-- For a non-negative (natural-number) limit, `getGlobalFeed` is the
capped window over the global selection. -/
theorem getGlobalFeed_coe_nat (parse : String → Option (List LocationItem))
    (db : List DBRow) (limit : ℕ) (cursor : Option String) :
    getGlobalFeed parse db (limit : ℤ) cursor =
      ((selectGlobal db cursor).take (min limit 100)).map (rowToStoredCheckin parse) := by
  rw [getGlobalFeed, if_neg (by omega)]
  have h1 : (min (limit : ℤ) 100).toNat = min limit 100 := by omega
  rw [h1]

/-- The cap does hold for every non-negative limit: at most
`min limit 100` rows, hence at most 100, in particular at limit 150. -/
theorem getGlobalFeed_cap_of_nonneg (parse : String → Option (List LocationItem))
    (db : List DBRow) (limit : ℤ) (cursor : Option String) (h : 0 ≤ limit) :
    (getGlobalFeed parse db limit cursor).length ≤ 100 := by
  rw [getGlobalFeed, if_neg (by omega), List.length_map, List.length_take]
  have h1 : (min limit 100).toNat ≤ 100 := by omega
  exact le_trans (min_le_left _ _) h1

/-- A stored data volume of 101 rows, for exercising the cap. -/
def manyRows : List DBRow :=
  List.replicate 101
    ⟨"r", "did:a", "t", "2025-01-01T00:00:00Z", none, none, none, none, "u", none⟩

theorem insertDesc_length (r : DBRow) :
    ∀ l : List DBRow, (insertDesc r l).length = l.length + 1 := by
  intro l
  induction l with
  | nil => rfl
  | cons x xs ih =>
    rw [insertDesc]
    by_cases hc : x.createdAt ≤ r.createdAt
    · rw [if_pos hc]
      rfl
    · rw [if_neg hc]
      simp [ih]

theorem sortByCreatedAtDesc_length :
    ∀ l : List DBRow, (sortByCreatedAtDesc l).length = l.length := by
  intro l
  induction l with
  | nil => rfl
  | cons x xs ih =>
    rw [sortByCreatedAtDesc, insertDesc_length, ih]
    rfl

/-- C1 fails on the code: the route's `parseInt` has no lower bound, so
a request `?limit=-5` reaches `getGlobalFeed(-5)`; `Math.min(-5, 100) =
-5` is bound to SQL `LIMIT`, which SQLite treats as unbounded, and all
101 stored rows come back — more than the claimed hard cap of 100.  The
claim's concrete instance `getGlobalFeed(150)` does stay within 100. -/
theorem getGlobalFeed_negative_limit_bypasses_cap :
    (getGlobalFeed (fun _ => none) manyRows (-5) none).length = 101 ∧
    100 < (getGlobalFeed (fun _ => none) manyRows (-5) none).length ∧
    (getGlobalFeed (fun _ => none) manyRows 150 none).length = 100 := by
  have hsel : (selectGlobal manyRows none).length = 101 := by
    simp only [selectGlobal]
    rw [sortByCreatedAtDesc_length]
    simp [manyRows]
  have h1 : (getGlobalFeed (fun _ => none) manyRows (-5) none).length = 101 := by
    rw [getGlobalFeed, if_pos (by decide), List.length_map, hsel]
  refine ⟨h1, by rw [h1]; norm_num, ?_⟩
  rw [getGlobalFeed, if_neg (by decide), List.length_map, List.length_take, hsel]
  decide

/-! ## C4: expired cache entries are never served -/

theorem cacheGet_cacheSet_self (c : AuthCache) (token : String) (e : CacheEntry) :
    cacheGet (cacheSet c token e) token = some e := by
  rw [cacheSet, cacheGet, if_pos rfl]

theorem tryPdsHosts_success_caches (cache : AuthCache) (now : ℤ) (token : String) :
    ∀ (hosts : List (Option AuthContext)) (ctx : AuthContext) (c' : AuthCache),
      tryPdsHosts cache now token hosts = (some ctx, c') →
      cacheGet c' token = some ⟨ctx.did, ctx.handle, now + CACHE_TTL⟩ := by
  intro hosts
  induction hosts with
  | nil => intro ctx c' h; cases h
  | cons hd tl ih =>
    intro ctx c' h
    match hd with
    | none => exact ih ctx c' h
    | some ctx0 =>
      rw [tryPdsHosts] at h
      cases h
      exact cacheGet_cacheSet_self cache token _

/-- C4: `validateToken` never serves an expired cache entry.  An entry
with `expires ≤ now` is ignored and the token is re-resolved against the
host list; and whenever the host loop succeeds, the freshly cached entry
expires exactly one hour (`CACHE_TTL = 3600000` ms) after `now`.  A
cached identity is only returned when `now < expires`. -/
theorem validateToken_never_serves_expired :
    ∀ (cache : AuthCache) (now : ℤ) (hosts : List (Option AuthContext)) (token : String),
      (∀ e, cacheGet cache token = some e → e.expires ≤ now →
        validateToken cache now hosts token = tryPdsHosts cache now token hosts) ∧
      (∀ ctx c', tryPdsHosts cache now token hosts = (some ctx, c') →
        cacheGet c' token = some ⟨ctx.did, ctx.handle, now + 3600000⟩) ∧
      (∀ e, cacheGet cache token = some e → now < e.expires →
        validateToken cache now hosts token = (some ⟨e.did, e.handle⟩, cache)) := by
  intro cache now hosts token
  refine ⟨?_, ?_, ?_⟩
  · intro e he hexp
    simp only [validateToken, he]
    rw [if_neg (not_lt.mpr hexp)]
  · intro ctx c' h
    exact tryPdsHosts_success_caches cache now token hosts ctx c' h
  · intro e he hfresh
    simp only [validateToken, he]
    rw [if_pos hfresh]

/-- Witness for C4 at a concrete state: an entry expiring at time 5 is
ignored at time 5 and the successful host resolution is cached with
expiry 5 + 3600000. -/
theorem validateToken_never_serves_expired_witness :
    validateToken [("tok", ⟨"did:a", none, 5⟩)] 5 [some ⟨"did:b", some "h"⟩] "tok" =
      tryPdsHosts [("tok", ⟨"did:a", none, 5⟩)] 5 "tok" [some ⟨"did:b", some "h"⟩] ∧
    cacheGet (tryPdsHosts [("tok", ⟨"did:a", none, 5⟩)] 5 "tok"
        [some ⟨"did:b", some "h"⟩]).2 "tok" = some ⟨"did:b", some "h", 5 + 3600000⟩ := by
  have h := validateToken_never_serves_expired [("tok", ⟨"did:a", none, 5⟩)] 5
    [some ⟨"did:b", some "h"⟩] "tok"
  exact ⟨h.1 ⟨"did:a", none, 5⟩ (by decide) (by decide),
    h.2.1 ⟨"did:b", some "h"⟩ _ rfl⟩

/-! ## C7: no negative caching -/

/-- C7: when every configured host fails (rejection or transport error),
the host loop returns `null` with the cache untouched; consequently
`validateToken` on a cache miss, or on an expired entry, returns `null`
and leaves the cache exactly as it was, so the next call with the same
token attempts upstream resolution again. -/
theorem validateToken_no_negative_cache :
    ∀ (cache : AuthCache) (now : ℤ) (hosts : List (Option AuthContext)) (token : String),
      (∀ h ∈ hosts, h = none) →
      tryPdsHosts cache now token hosts = (none, cache) ∧
      (cacheGet cache token = none →
        validateToken cache now hosts token = (none, cache)) ∧
      (∀ e, cacheGet cache token = some e → e.expires ≤ now →
        validateToken cache now hosts token = (none, cache)) := by
  intro cache now hosts token hall
  have hloop : tryPdsHosts cache now token hosts = (none, cache) := by
    induction hosts with
    | nil => rfl
    | cons hd tl ih =>
      have hd_none : hd = none := hall hd (by simp)
      subst hd_none
      exact ih (fun x hx => hall x (by simp [hx]))
  refine ⟨hloop, ?_, ?_⟩
  · intro hmiss
    rw [validateToken, hmiss, hloop]
  · intro e he hexp
    simp only [validateToken, he]
    rw [if_neg (not_lt.mpr hexp), hloop]

/-- Witness for C7: two failing hosts, a cache miss, concrete state. -/
theorem validateToken_no_negative_cache_witness :
    tryPdsHosts [] 7 "t" [none, none] = (none, []) ∧
    validateToken [] 7 [none, none] "t" = (none, []) := by
  have h := validateToken_no_negative_cache [] 7 [none, none] "t" (by decide)
  exact ⟨h.1, h.2.1 rfl⟩

/-! ## C6: corrupted stored location JSON degrades, never crashes -/

/-- C6: a stored row whose `locations` column holds a string the JSON
parser rejects is still converted and returned by every read path: its
`locations` field degrades to absent while every other field is copied
from the row unchanged (the per-field values are independent of the
location parser entirely), and a selected row is never dropped from the
output of `getGlobalFeed`, `getCheckinsByAuthor` or `getCheckinByUri`. -/
theorem read_path_degrades_bad_locations :
    ∀ (parse parse' : String → Option (List LocationItem)) (db : List DBRow)
      (limit : ℕ) (cursor : Option String) (u : String) (row : DBRow) (s : String),
      (row.locations = some s → parse s = none →
        (rowToStoredCheckin parse row).locations = none) ∧
      ((rowToStoredCheckin parse row).id = row.id ∧
       (rowToStoredCheckin parse row).authorDid = row.authorDid ∧
       (rowToStoredCheckin parse row).text = row.text ∧
       (rowToStoredCheckin parse row).createdAt = row.createdAt ∧
       (rowToStoredCheckin parse row).uri = row.uri ∧
       (rowToStoredCheckin parse row).category = (rowToStoredCheckin parse' row).category ∧
       (rowToStoredCheckin parse row).categoryGroup = (rowToStoredCheckin parse' row).categoryGroup ∧
       (rowToStoredCheckin parse row).categoryIcon = (rowToStoredCheckin parse' row).categoryIcon ∧
       (rowToStoredCheckin parse row).cid = (rowToStoredCheckin parse' row).cid) ∧
      (row ∈ (selectGlobal db cursor).take (min limit 100) →
        rowToStoredCheckin parse row ∈ getGlobalFeed parse db (limit : ℤ) cursor) ∧
      (row ∈ (selectByAuthor db u cursor).take limit →
        rowToStoredCheckin parse row ∈ getCheckinsByAuthor parse db u limit cursor) ∧
      ((db.filter (fun r => r.uri = u)).head? = some row →
        getCheckinByUri parse db u = some (rowToStoredCheckin parse row)) := by
  intro parse parse' db limit cursor u row s
  refine ⟨?_, ⟨rfl, rfl, rfl, rfl, rfl, rfl, rfl, rfl, rfl⟩, ?_, ?_, ?_⟩
  · intro hs hbad
    rw [rowToStoredCheckin]
    simp only [hs]
    by_cases he : s.isEmpty
    · simp [sqlTruthyStr, he]
    · simp [sqlTruthyStr, he, hbad]
  · intro hmem
    rw [getGlobalFeed_coe_nat]
    exact List.mem_map_of_mem (rowToStoredCheckin parse) hmem
  · intro hmem
    exact List.mem_map_of_mem (rowToStoredCheckin parse) hmem
  · intro hhead
    rw [getCheckinByUri, hhead]
    rfl

/-- Witness for C6: a concrete corrupt row under an always-failing
parser is returned by the global feed with `locations` absent. -/
theorem read_path_degrades_bad_locations_witness :
    (rowToStoredCheckin (fun _ => none)
      ⟨"r1", "did:a", "hi", "2025-01-01", some "corrupt", none, none, none,
        "at://did:a/app.dropanchor.checkin/r1", none⟩).locations = none ∧
    rowToStoredCheckin (fun _ => none)
      ⟨"r1", "did:a", "hi", "2025-01-01", some "corrupt", none, none, none,
        "at://did:a/app.dropanchor.checkin/r1", none⟩ ∈
      getGlobalFeed (fun _ => none)
        [⟨"r1", "did:a", "hi", "2025-01-01", some "corrupt", none, none, none,
          "at://did:a/app.dropanchor.checkin/r1", none⟩] 50 none := by
  have h := read_path_degrades_bad_locations (fun _ => none) (fun _ => none)
    [⟨"r1", "did:a", "hi", "2025-01-01", some "corrupt", none, none, none,
      "at://did:a/app.dropanchor.checkin/r1", none⟩] 50 none
    "at://did:a/app.dropanchor.checkin/r1"
    ⟨"r1", "did:a", "hi", "2025-01-01", some "corrupt", none, none, none,
      "at://did:a/app.dropanchor.checkin/r1", none⟩ "corrupt"
  exact ⟨h.1 rfl rfl, h.2.2.1 (by decide)⟩

/-! ## Validator inversion lemmas -/

theorem validateText_ok {rec : JSValue} {t : String} (h : validateText rec = .ok t) :
    asTruthyString (getField rec "text") = some t ∧ t.length ≤ 300 := by
  rw [validateText] at h
  split at h
  · cases h
  next t' heq =>
    split at h
    · cases h
    next hlen =>
      cases h
      exact ⟨heq, by omega⟩

theorem validateCreatedAt_ok {dp : String → Bool} {rec : JSValue} {c : String}
    (h : validateCreatedAt dp rec = .ok c) :
    asTruthyString (getField rec "createdAt") = some c ∧ dp c = true := by
  rw [validateCreatedAt] at h
  split at h
  · cases h
  next c' heq =>
    split at h
    next hdp =>
      cases h
      exact ⟨heq, hdp⟩
    · cases h

theorem validateCategoryField_ok {rec : JSValue} {name : String} {cap : ℕ}
    {o : Option String} (h : validateCategoryField rec name cap = .ok o) :
    ∀ s, o = some s → s ≠ "" ∧ s.length ≤ cap ∧ getField rec name = some (.str s) := by
  rw [validateCategoryField] at h
  split at h
  · cases h
    intro s hs
    cases hs
  next s' heq =>
    split at h
    · cases h
    · split at h
      · cases h
      next h0 hcap =>
        cases h
        intro s hs
        cases hs
        refine ⟨?_, by omega, heq⟩
        intro hc
        exact h0 (by rw [hc]; rfl)
  · cases h

theorem validateLocationList_ok_mem :
    ∀ {elems : List JSValue} {ls : List LocationItem},
      validateLocationList elems = .ok ls →
      (∀ x ∈ elems, ∃ it, validateLocationItem x = .ok it) ∧
      ls.length = elems.length ∧ ∀ it ∈ ls, ∃ x ∈ elems, validateLocationItem x = .ok it := by
  intro elems
  induction elems with
  | nil =>
    intro ls h
    cases h
    exact ⟨by simp, by simp, by simp⟩
  | cons x xs ih =>
    intro ls h
    rw [validateLocationList] at h
    split at h
    · cases h
    next it heq =>
      split at h
      · cases h
      next rest heq2 =>
        cases h
        obtain ⟨hall, hlen, hback⟩ := ih heq2
        refine ⟨?_, by simp [hlen], ?_⟩
        · intro y hy
          rcases List.mem_cons.mp hy with hy | hy
          · exact ⟨it, hy ▸ heq⟩
          · exact hall y hy
        · intro jt hjt
          rcases List.mem_cons.mp hjt with hjt | hjt
          · exact ⟨x, by simp, hjt ▸ heq⟩
          · obtain ⟨y, hy, hv⟩ := hback jt hjt
            exact ⟨y, by simp [hy], hv⟩

theorem validateLocationsField_ok_arr {rec : JSValue} {elems : List JSValue}
    {o : Option (List LocationItem)}
    (hg : getField rec "locations" = some (.arr elems))
    (h : validateLocationsField rec = .ok o) :
    ∃ ls, validateLocationList elems = .ok ls ∧
      o = (if ls.length > 0 then some ls else none) := by
  have hred : validateLocationsField rec =
      match validateLocationList elems with
      | .error e => .error e
      | .ok ls => .ok (if ls.length > 0 then some ls else none) := by
    rw [validateLocationsField, hg]
  rw [hred] at h
  cases hv : validateLocationList elems with
  | error e =>
    rw [hv] at h
    cases h
  | ok ls =>
    rw [hv] at h
    cases h
    exact ⟨ls, hv ▸ rfl, rfl⟩

theorem validateCheckinRecord_ok_parts {dp : String → Bool} {rec : JSValue}
    {r : CheckinRecord} (h : validateCheckinRecord dp rec = .ok r) :
    isObjectLike rec = true ∧ validateText rec = .ok r.text ∧
    validateCreatedAt dp rec = .ok r.createdAt ∧
    validateLocationsField rec = .ok r.locations ∧
    validateCategoryField rec "category" 50 = .ok r.category ∧
    validateCategoryField rec "categoryGroup" 50 = .ok r.categoryGroup ∧
    validateCategoryField rec "categoryIcon" 10 = .ok r.categoryIcon := by
  rw [validateCheckinRecord] at h
  split at h
  next hobj =>
    split at h
    · cases h
    next text htext =>
      split at h
      · cases h
      next createdAt hca =>
        split at h
        · cases h
        next locs hlo =>
          split at h
          · cases h
          next cat hc1 =>
            split at h
            · cases h
            next catGroup hc2 =>
              split at h
              · cases h
              next catIcon hc3 =>
                cases h
                exact ⟨hobj, htext, hca, hlo, hc1, hc2, hc3⟩
  next hobj => cases h

/-! ## C10: empty text is rejected as missing text -/

/-- C10: an input object whose `text` field is present but equal to the
empty string is rejected with the missing-text error `"Record must have a
text field"` — `!record.text` treats the falsy empty string as absent, so
the 1-character minimum is enforced only through this rejection. -/
theorem empty_text_rejected_as_missing :
    ∀ (dp : String → Bool) (x : JSValue),
      isObjectLike x = true → getField x "text" = some (.str "") →
      validateCheckinRecord dp x = .error "Record must have a text field" := by
  intro dp x hobj htext
  have ht : validateText x = .error "Record must have a text field" := by
    rw [validateText, htext]
    rfl
  rw [validateCheckinRecord, if_pos hobj, ht]

/-- Witness for C10: a concrete object with `text: ""` and an otherwise
valid shape is rejected with the missing-text error. -/
theorem empty_text_rejected_as_missing_witness :
    validateCheckinRecord (fun _ => true)
      (.obj [("text", .str ""), ("createdAt", .str "2025-01-01T00:00:00Z")]) =
      .error "Record must have a text field" :=
  empty_text_rejected_as_missing (fun _ => true)
    (.obj [("text", .str ""), ("createdAt", .str "2025-01-01T00:00:00Z")]) rfl rfl

/-! ## C9: garbage after a numeric prefix is accepted and echoed -/

/-- C9: a geo location whose coordinate strings carry an in-range numeric
prefix followed by arbitrary garbage is accepted — `parseFloat` parses
the longest prefix — and the original strings, garbage included, are
echoed verbatim into the validated location. -/
theorem geo_prefix_parse_accepted_and_echoed :
    ∀ (loc : JSValue) (lat lng : String) (a b : DecNum),
      getField loc "latitude" = some (.str lat) → lat ≠ "" →
      getField loc "longitude" = some (.str lng) → lng ≠ "" →
      jsParseFloat lat = some a →
      ¬(a < DecNum.ofInt (-90) ∨ DecNum.ofInt 90 < a) →
      jsParseFloat lng = some b →
      ¬(b < DecNum.ofInt (-180) ∨ DecNum.ofInt 180 < b) →
      validateGeoLocation loc = .ok ⟨lat, lng⟩ := by
  intro loc lat lng a b hglat hlatne hglng hlngne hpa hra hpb hrb
  simp only [validateGeoLocation, hglat, asTruthyString_of_ne hlatne, hglng,
    asTruthyString_of_ne hlngne, hpa, hpb]
  rw [if_neg hra, if_neg hrb]

/-- Witness for C9 at the spec's example: latitude `"45abc"` parses to
45 (in range), the record validates, and `"45abc"` is echoed verbatim. -/
theorem geo_prefix_parse_accepted_and_echoed_witness :
    jsParseFloat "45abc" = some ⟨45, 0⟩ ∧
    validateGeoLocation
      (.obj [("$type", .str "community.lexicon.location.geo"),
             ("latitude", .str "45abc"), ("longitude", .str "-74.0060xyz")]) =
      .ok ⟨"45abc", "-74.0060xyz"⟩ ∧
    validateCheckinRecord (fun _ => true)
      (.obj [("text", .str "hi"), ("createdAt", .str "2025-06-15T13:00:00Z"),
             ("locations", .arr [.obj [("$type", .str "community.lexicon.location.geo"),
               ("latitude", .str "45abc"), ("longitude", .str "-74.0060xyz")]])]) =
      .ok { text := "hi", createdAt := "2025-06-15T13:00:00Z",
            locations := some [.geo ⟨"45abc", "-74.0060xyz"⟩] } := by
  refine ⟨by decide, ?_, by decide⟩
  exact geo_prefix_parse_accepted_and_echoed
    (.obj [("$type", .str "community.lexicon.location.geo"),
           ("latitude", .str "45abc"), ("longitude", .str "-74.0060xyz")])
    "45abc" "-74.0060xyz" ⟨45, 0⟩ ⟨-740060, 4⟩
    rfl (by decide) rfl (by decide) (by decide) (by decide) (by decide) (by decide)

/-! ## C5: out-of-range coordinates are rejected with a named error -/

/-- C5: a geo location element with both coordinates present as strings
is rejected naming the offending coordinate: a parsed latitude outside
[-90, 90] yields the latitude error, a parsed longitude outside
[-180, 180] (with the latitude in range) yields the longitude error —
even when the strings are syntactically valid numbers; and a record
accepted by `validateCheckinRecord` has every element of its input
`locations` array validated, so a record containing such an element is
never accepted. -/
theorem geo_out_of_range_rejected :
    (∀ (loc : JSValue) (lat lng : String) (a : DecNum),
      getField loc "latitude" = some (.str lat) → lat ≠ "" →
      getField loc "longitude" = some (.str lng) → lng ≠ "" →
      jsParseFloat lat = some a →
      (a < DecNum.ofInt (-90) ∨ DecNum.ofInt 90 < a) →
      validateGeoLocation loc =
        .error "latitude must be a valid number between -90 and 90") ∧
    (∀ (loc : JSValue) (lat lng : String) (a b : DecNum),
      getField loc "latitude" = some (.str lat) → lat ≠ "" →
      getField loc "longitude" = some (.str lng) → lng ≠ "" →
      jsParseFloat lat = some a →
      ¬(a < DecNum.ofInt (-90) ∨ DecNum.ofInt 90 < a) →
      jsParseFloat lng = some b →
      (b < DecNum.ofInt (-180) ∨ DecNum.ofInt 180 < b) →
      validateGeoLocation loc =
        .error "longitude must be a valid number between -180 and 180") ∧
    (∀ (dp : String → Bool) (rec : JSValue) (r : CheckinRecord)
      (elems : List JSValue),
      validateCheckinRecord dp rec = .ok r →
      getField rec "locations" = some (.arr elems) →
      ∀ x ∈ elems, ∃ it, validateLocationItem x = .ok it) := by
  refine ⟨?_, ?_, ?_⟩
  · intro loc lat lng a hglat hlatne hglng hlngne hpa hra
    simp only [validateGeoLocation, hglat, asTruthyString_of_ne hlatne, hglng,
      asTruthyString_of_ne hlngne, hpa]
    rw [if_pos hra]
  · intro loc lat lng a b hglat hlatne hglng hlngne hpa hra hpb hrb
    simp only [validateGeoLocation, hglat, asTruthyString_of_ne hlatne, hglng,
      asTruthyString_of_ne hlngne, hpa, hpb]
    rw [if_neg hra, if_pos hrb]
  · intro dp rec r elems hok hg x hx
    obtain ⟨-, -, -, hlo, -⟩ := validateCheckinRecord_ok_parts hok
    obtain ⟨ls, hls, -⟩ := validateLocationsField_ok_arr hg hlo
    exact (validateLocationList_ok_mem hls).1 x hx

/-- Witness for C5: latitude `"91"` (a syntactically valid number) is
rejected with the latitude error; longitude `"-180.5"` with latitude in
range is rejected with the longitude error. -/
theorem geo_out_of_range_rejected_witness :
    validateGeoLocation
      (.obj [("$type", .str "community.lexicon.location.geo"),
             ("latitude", .str "91"), ("longitude", .str "0")]) =
      .error "latitude must be a valid number between -90 and 90" ∧
    validateGeoLocation
      (.obj [("$type", .str "community.lexicon.location.geo"),
             ("latitude", .str "40.7"), ("longitude", .str "-180.5")]) =
      .error "longitude must be a valid number between -180 and 180" := by
  constructor
  · exact geo_out_of_range_rejected.1
      (.obj [("$type", .str "community.lexicon.location.geo"),
             ("latitude", .str "91"), ("longitude", .str "0")])
      "91" "0" ⟨91, 0⟩ rfl (by decide) rfl (by decide) (by decide) (by decide)
  · exact geo_out_of_range_rejected.2.1
      (.obj [("$type", .str "community.lexicon.location.geo"),
             ("latitude", .str "40.7"), ("longitude", .str "-180.5")])
      "40.7" "-180.5" ⟨407, 1⟩ ⟨-1805, 1⟩ rfl (by decide) rfl (by decide)
      (by decide) (by decide) (by decide) (by decide)

/-! ## C3: an empty `locations` input array yields an absent field -/

theorem validateLocationsField_ok_cases {rec : JSValue} {o : Option (List LocationItem)}
    (h : validateLocationsField rec = .ok o) :
    o = none ∨ ∃ elems ls, getField rec "locations" = some (.arr elems) ∧
      validateLocationList elems = .ok ls ∧ ls.length > 0 ∧ o = some ls := by
  rw [validateLocationsField] at h
  split at h
  · cases h
    exact Or.inl rfl
  next elems heq =>
    split at h
    · cases h
    next ls hls =>
      cases h
      by_cases hlen : ls.length > 0
      · right
        exact ⟨elems, ls, heq, hls, hlen, by rw [if_pos hlen]⟩
      · left
        rw [if_neg hlen]
  · cases h

/-- C3 counterexample: an otherwise-valid input whose `locations` field
is the genuinely empty array is accepted, but the returned record's
`locations` field is absent (`none`), not present-and-empty
(`some []`). -/
theorem locations_empty_array_counterexample :
    validateCheckinRecord (fun _ => true)
      (.obj [("text", .str "hi"), ("createdAt", .str "2025-01-01T00:00:00Z"),
             ("locations", .arr [])]) =
      .ok { text := "hi", createdAt := "2025-01-01T00:00:00Z" } ∧
    ({ text := "hi", createdAt := "2025-01-01T00:00:00Z" } : CheckinRecord).locations
      = none ∧
    ({ text := "hi", createdAt := "2025-01-01T00:00:00Z" } : CheckinRecord).locations
      ≠ some [] := by
  refine ⟨by decide, rfl, by decide⟩

/-- C3 amended: a present, genuinely empty `locations` input array is
accepted and the `locations` field is omitted from the result (absent,
exactly as when validation produces zero validated elements — for an
all-or-nothing validator these coincide); a present output `locations`
list is never empty, and it has exactly the input array's length. -/
theorem locations_empty_array_omitted :
    ∀ (dp : String → Bool) (x : JSValue) (r : CheckinRecord),
      validateCheckinRecord dp x = .ok r →
      (getField x "locations" = some (.arr []) → r.locations = none) ∧
      (∀ ls, r.locations = some ls → ls ≠ []) ∧
      (∀ elems ls, getField x "locations" = some (.arr elems) →
        r.locations = some ls → ls.length = elems.length) := by
  intro dp x r h
  obtain ⟨-, -, -, hlo, -⟩ := validateCheckinRecord_ok_parts h
  refine ⟨?_, ?_, ?_⟩
  · intro hg
    obtain ⟨ls, hls, ho⟩ := validateLocationsField_ok_arr hg hlo
    have hlen : ls.length = 0 := (validateLocationList_ok_mem hls).2.1.trans rfl
    rw [ho, if_neg (by omega)]
  · intro ls hsome
    rcases validateLocationsField_ok_cases hlo with hnone | ⟨elems, ls', -, -, hpos, ho⟩
    · rw [hnone] at hsome
      cases hsome
    · rw [ho] at hsome
      cases hsome
      intro hnil
      rw [hnil] at hpos
      exact absurd hpos (by simp)
  · intro elems ls hg hsome
    obtain ⟨ls', hls', ho⟩ := validateLocationsField_ok_arr hg hlo
    rw [ho] at hsome
    by_cases hlen : ls'.length > 0
    · rw [if_pos hlen] at hsome
      cases hsome
      exact (validateLocationList_ok_mem hls').2.1
    · rw [if_neg hlen] at hsome
      cases hsome

/-- Witness for the amended C3 at a concrete input with `locations: []`:
the accepted record's `locations` field is absent. -/
theorem locations_empty_array_omitted_witness :
    ({ text := "hi", createdAt := "2025-01-01T00:00:00Z" } : CheckinRecord).locations
      = none :=
  (locations_empty_array_omitted (fun _ => true)
    (.obj [("text", .str "hi"), ("createdAt", .str "2025-01-01T00:00:00Z"),
           ("locations", .arr [])])
    { text := "hi", createdAt := "2025-01-01T00:00:00Z" } (by decide)).1 rfl

/-! ## C8: idempotence and closure of the validator output -/

theorem String.length_ne_zero_of_ne {s : String} (h : s ≠ "") : ¬(s.length = 0) := by
  intro hc
  apply h
  have hd : s.data.length = 0 := by rw [String.length_data]; exact hc
  exact String.ext (by simp [List.length_eq_zero.mp hd])

/-- The JS object form of a validated geo location. -/
def GeoLocation.toJS (g : GeoLocation) : JSValue :=
  .obj [("$type", .str "community.lexicon.location.geo"),
        ("latitude", .str g.latitude), ("longitude", .str g.longitude)]

/-- A present optional string field of a record's JS object form. -/
def optStrField (name : String) : Option String → List (String × JSValue)
  | none => []
  | some s => [(name, .str s)]

/-- The JS object form of a validated address location: only present
fields appear. -/
def AddressLocation.toJS (a : AddressLocation) : JSValue :=
  .obj ([("$type", .str "community.lexicon.location.address")] ++
    optStrField "street" a.street ++ optStrField "locality" a.locality ++
    optStrField "region" a.region ++ optStrField "country" a.country ++
    optStrField "postalCode" a.postalCode ++ optStrField "name" a.name)

/-- The JS object form of a validated location item. -/
def LocationItem.toJS : LocationItem → JSValue
  | .geo g => g.toJS
  | .address a => a.toJS

/-- The JS object form of a validated check-in record: exactly the
recognized fields, `$type` the recomputed constant, optional fields
present only when set. -/
def CheckinRecord.toJS (r : CheckinRecord) : JSValue :=
  .obj ([("$type", .str "app.dropanchor.checkin"), ("text", .str r.text),
         ("createdAt", .str r.createdAt)] ++
    (match r.locations with
     | some ls => [("locations", .arr (ls.map LocationItem.toJS))]
     | none => []) ++
    optStrField "category" r.category ++ optStrField "categoryGroup" r.categoryGroup ++
    optStrField "categoryIcon" r.categoryIcon)

/-- The field names of a JS object. -/
def objKeys : JSValue → List String
  | .obj fs => fs.map Prod.fst
  | _ => []

/-- What the geo validator guarantees about its output. -/
def geoWF (g : GeoLocation) : Prop :=
  g.latitude ≠ "" ∧ g.longitude ≠ "" ∧
  (∃ a, jsParseFloat g.latitude = some a ∧
    ¬(a < DecNum.ofInt (-90) ∨ DecNum.ofInt 90 < a)) ∧
  (∃ b, jsParseFloat g.longitude = some b ∧
    ¬(b < DecNum.ofInt (-180) ∨ DecNum.ofInt 180 < b))

/-- What the element validator guarantees about its output. -/
def itemWF : LocationItem → Prop
  | .geo g => geoWF g
  | .address _ => True

/-- What `validateCheckinRecord` guarantees about its output. -/
def recordWF (dp : String → Bool) (r : CheckinRecord) : Prop :=
  r.text ≠ "" ∧ r.text.length ≤ 300 ∧ r.createdAt ≠ "" ∧ dp r.createdAt = true ∧
  (∀ ls, r.locations = some ls → ls ≠ [] ∧ ∀ it ∈ ls, itemWF it) ∧
  (∀ s, r.category = some s → s ≠ "" ∧ s.length ≤ 50) ∧
  (∀ s, r.categoryGroup = some s → s ≠ "" ∧ s.length ≤ 50) ∧
  (∀ s, r.categoryIcon = some s → s ≠ "" ∧ s.length ≤ 10)

theorem validateGeoLocation_ok_of :
    ∀ (loc : JSValue) (lat lng : String) (a b : DecNum),
      getField loc "latitude" = some (.str lat) → lat ≠ "" →
      getField loc "longitude" = some (.str lng) → lng ≠ "" →
      jsParseFloat lat = some a →
      ¬(a < DecNum.ofInt (-90) ∨ DecNum.ofInt 90 < a) →
      jsParseFloat lng = some b →
      ¬(b < DecNum.ofInt (-180) ∨ DecNum.ofInt 180 < b) →
      validateGeoLocation loc = .ok ⟨lat, lng⟩ := by
  intro loc lat lng a b hglat hlatne hglng hlngne hpa hra hpb hrb
  simp only [validateGeoLocation, hglat, asTruthyString_of_ne hlatne, hglng,
    asTruthyString_of_ne hlngne, hpa, hpb]
  rw [if_neg hra, if_neg hrb]

theorem validateGeoLocation_ok_inv {loc : JSValue} {g : GeoLocation}
    (h : validateGeoLocation loc = .ok g) : geoWF g := by
  rw [validateGeoLocation] at h
  split at h
  · cases h
  next latS hlat =>
    split at h
    · cases h
    next lngS hlng =>
      split at h
      · cases h
      next a hpa =>
        split at h
        · cases h
        next hra =>
          split at h
          · cases h
          next b hpb =>
            split at h
            · cases h
            next hrb =>
              cases h
              exact ⟨(asTruthyString_some hlat).2, (asTruthyString_some hlng).2,
                ⟨a, hpa, hra⟩, ⟨b, hpb, hrb⟩⟩

theorem validateGeoLocation_toJS {g : GeoLocation} (h : geoWF g) :
    validateGeoLocation g.toJS = .ok g := by
  obtain ⟨hlat, hlng, ⟨a, hpa, hra⟩, ⟨b, hpb, hrb⟩⟩ := h
  exact validateGeoLocation_ok_of g.toJS g.latitude g.longitude a b rfl hlat rfl hlng
    hpa hra hpb hrb

theorem validateAddressLocation_toJS (a : AddressLocation) :
    validateAddressLocation a.toJS = .ok a := by
  obtain ⟨st, lo, re, co, po, na⟩ := a
  cases st <;> cases lo <;> cases re <;> cases co <;> cases po <;> cases na <;> rfl

theorem validateLocationItem_ok_inv {x : JSValue} {it : LocationItem}
    (h : validateLocationItem x = .ok it) : itemWF it := by
  rw [validateLocationItem] at h
  split at h
  · cases h
  next tv heq =>
    split at h
    · cases h
    next htruth =>
      split at h
      · cases hg : validateGeoLocation x with
        | error e =>
          rw [hg] at h
          cases h
        | ok g =>
          rw [hg] at h
          cases h
          exact validateGeoLocation_ok_inv hg
      · cases ha : validateAddressLocation x with
        | error e =>
          rw [ha] at h
          cases h
        | ok a0 =>
          rw [ha] at h
          cases h
          trivial
      · cases h

theorem validateLocationItem_toJS {it : LocationItem} (h : itemWF it) :
    validateLocationItem it.toJS = .ok it := by
  cases it with
  | geo g =>
    have hred : validateLocationItem (LocationItem.toJS (.geo g)) =
        (validateGeoLocation g.toJS).map .geo := rfl
    rw [hred, validateGeoLocation_toJS h]
    rfl
  | address a =>
    have hred : validateLocationItem (LocationItem.toJS (.address a)) =
        (validateAddressLocation a.toJS).map .address := rfl
    rw [hred, validateAddressLocation_toJS a]
    rfl

theorem validateLocationList_toJS {ls : List LocationItem}
    (h : ∀ it ∈ ls, itemWF it) :
    validateLocationList (ls.map LocationItem.toJS) = .ok ls := by
  induction ls with
  | nil => rfl
  | cons it rest ih =>
    simp only [List.map_cons, validateLocationList,
      validateLocationItem_toJS (h it (by simp)),
      ih (fun jt hjt => h jt (by simp [hjt]))]

theorem getField_toJS_text (r : CheckinRecord) :
    getField r.toJS "text" = some (.str r.text) := rfl

theorem getField_toJS_createdAt (r : CheckinRecord) :
    getField r.toJS "createdAt" = some (.str r.createdAt) := rfl

theorem getField_toJS_locations (r : CheckinRecord) :
    getField r.toJS "locations" =
      Option.map (fun ls => .arr (ls.map LocationItem.toJS)) r.locations := by
  obtain ⟨t, c, lo, ca, cg, ci⟩ := r
  cases lo <;> cases ca <;> cases cg <;> cases ci <;> rfl

theorem getField_toJS_category (r : CheckinRecord) :
    getField r.toJS "category" = Option.map .str r.category := by
  obtain ⟨t, c, lo, ca, cg, ci⟩ := r
  cases lo <;> cases ca <;> cases cg <;> cases ci <;> rfl

theorem getField_toJS_categoryGroup (r : CheckinRecord) :
    getField r.toJS "categoryGroup" = Option.map .str r.categoryGroup := by
  obtain ⟨t, c, lo, ca, cg, ci⟩ := r
  cases lo <;> cases ca <;> cases cg <;> cases ci <;> rfl

theorem getField_toJS_categoryIcon (r : CheckinRecord) :
    getField r.toJS "categoryIcon" = Option.map .str r.categoryIcon := by
  obtain ⟨t, c, lo, ca, cg, ci⟩ := r
  cases lo <;> cases ca <;> cases cg <;> cases ci <;> rfl

theorem toJS_keys_subset (r : CheckinRecord) :
    objKeys r.toJS ⊆ ["$type", "text", "createdAt", "locations", "category",
      "categoryGroup", "categoryIcon"] := by
  obtain ⟨t, c, lo, ca, cg, ci⟩ := r
  cases lo <;> cases ca <;> cases cg <;> cases ci <;>
    simp [CheckinRecord.toJS, objKeys, optStrField, List.subset_def]

theorem validateCheckinRecord_ok_wf {dp : String → Bool} {x : JSValue}
    {r : CheckinRecord} (h : validateCheckinRecord dp x = .ok r) : recordWF dp r := by
  obtain ⟨hobj, htext, hca, hlo, hc1, hc2, hc3⟩ := validateCheckinRecord_ok_parts h
  obtain ⟨htv, htlen⟩ := validateText_ok htext
  obtain ⟨hcv, hdp⟩ := validateCreatedAt_ok hca
  refine ⟨(asTruthyString_some htv).2, htlen, (asTruthyString_some hcv).2, hdp,
    ?_, ?_, ?_, ?_⟩
  · intro ls hsome
    rcases validateLocationsField_ok_cases hlo with hnone | ⟨elems, ls', hg, hls', hpos, ho⟩
    · rw [hnone] at hsome
      cases hsome
    · rw [ho] at hsome
      cases hsome
      constructor
      · intro hnil
        rw [hnil] at hpos
        exact absurd hpos (by simp)
      · intro it hit
        obtain ⟨xx, hx, hvx⟩ := (validateLocationList_ok_mem hls').2.2 it hit
        exact validateLocationItem_ok_inv hvx
  · intro s hs
    obtain ⟨hne, hlen, -⟩ := validateCategoryField_ok hc1 s hs
    exact ⟨hne, hlen⟩
  · intro s hs
    obtain ⟨hne, hlen, -⟩ := validateCategoryField_ok hc2 s hs
    exact ⟨hne, hlen⟩
  · intro s hs
    obtain ⟨hne, hlen, -⟩ := validateCategoryField_ok hc3 s hs
    exact ⟨hne, hlen⟩

theorem validateCategoryField_toJS_of (r : CheckinRecord) (name : String) (cap : ℕ)
    (field : CheckinRecord → Option String)
    (hgf : getField r.toJS name = Option.map .str (field r))
    (hwf : ∀ s, field r = some s → s ≠ "" ∧ s.length ≤ cap) :
    validateCategoryField r.toJS name cap = .ok (field r) := by
  cases hcs : field r with
  | none =>
    rw [hcs] at hgf
    rw [validateCategoryField, hgf]
    rfl
  | some s =>
    obtain ⟨hne, hlen⟩ := hwf s hcs
    rw [hcs] at hgf
    have hgf' : getField r.toJS name = some (.str s) := by rw [hgf]; rfl
    simp only [validateCategoryField, hgf']
    rw [if_neg (String.length_ne_zero_of_ne hne), if_neg (by omega)]

theorem validateCheckinRecord_toJS {dp : String → Bool} {r : CheckinRecord}
    (h : recordWF dp r) : validateCheckinRecord dp r.toJS = .ok r := by
  obtain ⟨htne, htlen, hcne, hdp, hlocs, hcat, hgrp, hicon⟩ := h
  have hobj : isObjectLike r.toJS = true := rfl
  have ht : validateText r.toJS = .ok r.text := by
    simp only [validateText, getField_toJS_text, asTruthyString_of_ne htne]
    rw [if_neg (by omega)]
  have hc : validateCreatedAt dp r.toJS = .ok r.createdAt := by
    simp only [validateCreatedAt, getField_toJS_createdAt, asTruthyString_of_ne hcne]
    rw [if_pos hdp]
  have hl : validateLocationsField r.toJS = .ok r.locations := by
    cases hls : r.locations with
    | none =>
      have hgf : getField r.toJS "locations" = none := by
        rw [getField_toJS_locations, hls]
        rfl
      rw [validateLocationsField, hgf]
    | some ls =>
      obtain ⟨hnil, hwf⟩ := hlocs ls hls
      have hgf : getField r.toJS "locations" =
          some (.arr (ls.map LocationItem.toJS)) := by
        rw [getField_toJS_locations, hls]
        rfl
      simp only [validateLocationsField, hgf, validateLocationList_toJS hwf]
      rw [if_pos (by cases ls with
        | nil => exact absurd rfl hnil
        | cons a as => simp)]
  have hcat1 : validateCategoryField r.toJS "category" 50 = .ok r.category :=
    validateCategoryField_toJS_of r "category" 50 (fun q => q.category)
      (getField_toJS_category r) hcat
  have hcat2 : validateCategoryField r.toJS "categoryGroup" 50 = .ok r.categoryGroup :=
    validateCategoryField_toJS_of r "categoryGroup" 50 (fun q => q.categoryGroup)
      (getField_toJS_categoryGroup r) hgrp
  have hcat3 : validateCategoryField r.toJS "categoryIcon" 10 = .ok r.categoryIcon :=
    validateCategoryField_toJS_of r "categoryIcon" 10 (fun q => q.categoryIcon)
      (getField_toJS_categoryIcon r) hicon
  rw [validateCheckinRecord, if_pos hobj]
  simp only [ht, hc, hl, hcat1, hcat2, hcat3]

/-- C8: for every accepted input, re-validating the JS form of the
returned record succeeds and returns the identical record (re-validation
is a no-op); the output carries only the recognized field names, with
`$type` recomputed to the constant `"app.dropanchor.checkin"`, and never
echoes unknown input fields. -/
theorem validate_idempotent_and_closed :
    ∀ (dp : String → Bool) (x : JSValue) (r : CheckinRecord),
      validateCheckinRecord dp x = .ok r →
      validateCheckinRecord dp r.toJS = .ok r ∧
      objKeys r.toJS ⊆ ["$type", "text", "createdAt", "locations", "category",
        "categoryGroup", "categoryIcon"] ∧
      getField r.toJS "$type" = some (.str "app.dropanchor.checkin") := by
  intro dp x r h
  exact ⟨validateCheckinRecord_toJS (validateCheckinRecord_ok_wf h),
    toJS_keys_subset r, rfl⟩

/-- Witness for C8: a concrete accepted record with a geo location, an
address location and categories revalidates to itself. -/
theorem validate_idempotent_and_closed_witness :
    validateCheckinRecord (fun _ => true)
      (.obj [("text", .str "Coffee"), ("createdAt", .str "2025-06-15T13:00:00Z"),
             ("unknownField", .str "dropme"),
             ("locations", .arr [.obj [("$type", .str "community.lexicon.location.geo"),
                ("latitude", .str "40.7128"), ("longitude", .str "-74.0060")]]),
             ("category", .str "cafe"), ("categoryIcon", .str "c")]) =
      .ok { text := "Coffee", createdAt := "2025-06-15T13:00:00Z",
            locations := some [.geo ⟨"40.7128", "-74.0060"⟩],
            category := some "cafe", categoryIcon := some "c" } ∧
    validateCheckinRecord (fun _ => true)
      ({ text := "Coffee", createdAt := "2025-06-15T13:00:00Z",
         locations := some [.geo ⟨"40.7128", "-74.0060"⟩],
         category := some "cafe", categoryIcon := some "c" } : CheckinRecord).toJS =
      .ok { text := "Coffee", createdAt := "2025-06-15T13:00:00Z",
            locations := some [.geo ⟨"40.7128", "-74.0060"⟩],
            category := some "cafe", categoryIcon := some "c" } := by
  refine ⟨by decide, ?_⟩
  exact (validate_idempotent_and_closed (fun _ => true)
    (.obj [("text", .str "Coffee"), ("createdAt", .str "2025-06-15T13:00:00Z"),
           ("unknownField", .str "dropme"),
           ("locations", .arr [.obj [("$type", .str "community.lexicon.location.geo"),
              ("latitude", .str "40.7128"), ("longitude", .str "-74.0060")]]),
           ("category", .str "cafe"), ("categoryIcon", .str "c")])
    { text := "Coffee", createdAt := "2025-06-15T13:00:00Z",
      locations := some [.geo ⟨"40.7128", "-74.0060"⟩],
      category := some "cafe", categoryIcon := some "c" } (by decide)).1

/-! ## C2: first violated rule wins, in the fixed order

The spec's rule list is formalized as `firstViolationSpec`: ten
independent guards evaluated in the spec's order, the first firing guard
supplying the error.  The claim is the equivalence of the sequential
source validator with this ordered-scan reading. -/

/-- The first `some` of a list of optional errors. -/
def firstSome : List (Option String) → Option String
  | [] => none
  | some e :: _ => some e
  | none :: rest => firstSome rest

theorem firstSome_nil : firstSome [] = none := rfl

theorem firstSome_some_cons (e : String) (rest : List (Option String)) :
    firstSome (some e :: rest) = some e := rfl

theorem firstSome_none_cons (rest : List (Option String)) :
    firstSome (none :: rest) = firstSome rest := rfl

/-- The error of a fallible computation, if any. -/
def errOption : Except String α → Option String
  | .error e => some e
  | .ok _ => none

/-- Rule 1: the input must be a non-null object. -/
def ruleNotObject (x : JSValue) : Option String :=
  if isObjectLike x then none else some "Record must be an object"

/-- Rule 2: `text` must be present as a (truthy) string. -/
def ruleMissingText (x : JSValue) : Option String :=
  match asTruthyString (getField x "text") with
  | none => some "Record must have a text field"
  | some _ => none

/-- Rule 3: `text` must be at most 300 characters. -/
def ruleTextTooLong (x : JSValue) : Option String :=
  match asTruthyString (getField x "text") with
  | some t => if t.length > 300 then some "text must be 300 characters or less" else none
  | none => none

/-- Rule 4: `createdAt` must be present as a (truthy) string. -/
def ruleMissingCreatedAt (x : JSValue) : Option String :=
  match asTruthyString (getField x "createdAt") with
  | none => some "Record must have a createdAt field"
  | some _ => none

/-- Rule 5: `createdAt` must parse as a timestamp. -/
def ruleInvalidTimestamp (dp : String → Bool) (x : JSValue) : Option String :=
  match asTruthyString (getField x "createdAt") with
  | some c => if dp c then none else some "createdAt must be a valid ISO timestamp"
  | none => none

/-- Rule 6: a present `locations` must be an array. -/
def ruleLocationsNotArray (x : JSValue) : Option String :=
  match getField x "locations" with
  | none => none
  | some (.arr _) => none
  | some _ => some "locations must be an array"

/-- The error of one location element, if any. -/
def elementErr (x : JSValue) : Option String :=
  errOption (validateLocationItem x)

/-- Rule 7: the per-element location errors, in sequence order. -/
def ruleLocationElements (x : JSValue) : Option String :=
  match getField x "locations" with
  | some (.arr elems) => firstSome (elems.map elementErr)
  | _ => none

/-- Rules 8-10: the optional category field checks. -/
def ruleCategoryError (x : JSValue) (name : String) (cap : ℕ) : Option String :=
  errOption (validateCategoryField x name cap)

/-- The spec's reading of the validator: the ten rules evaluated in the
fixed order, first failure wins. -/
def firstViolationSpec (dp : String → Bool) (x : JSValue) : Option String :=
  firstSome [ruleNotObject x, ruleMissingText x, ruleTextTooLong x,
    ruleMissingCreatedAt x, ruleInvalidTimestamp dp x, ruleLocationsNotArray x,
    ruleLocationElements x, ruleCategoryError x "category" 50,
    ruleCategoryError x "categoryGroup" 50, ruleCategoryError x "categoryIcon" 10]

theorem validateLocationList_firstSome :
    ∀ (elems : List JSValue),
      (∀ e, validateLocationList elems = .error e ↔
        firstSome (elems.map elementErr) = some e) ∧
      (∀ ls, validateLocationList elems = .ok ls →
        firstSome (elems.map elementErr) = none) := by
  intro elems
  induction elems with
  | nil =>
    constructor
    · intro e
      constructor
      · intro h
        cases h
      · intro h
        cases h
    · intro ls _
      rfl
  | cons x xs ih =>
    cases hval : validateLocationItem x with
    | error e0 =>
      have he : elementErr x = some e0 := by
        rw [elementErr, hval]
        rfl
      constructor
      · intro e
        simp only [validateLocationList, hval, List.map_cons, he, firstSome_some_cons]
        constructor
        · intro h
          cases h
          rfl
        · intro h
          cases h
          rfl
      · intro ls h
        rw [validateLocationList, hval] at h
        cases h
    | ok it =>
      have he : elementErr x = none := by
        rw [elementErr, hval]
        rfl
      cases hrest : validateLocationList xs with
      | error e1 =>
        have hr := (ih.1 e1).mp hrest
        constructor
        · intro e
          simp only [validateLocationList, hval, hrest, List.map_cons, he,
            firstSome_none_cons, hr]
          constructor
          · intro h
            cases h
            rfl
          · intro h
            cases h
            rfl
        · intro ls h
          rw [validateLocationList, hval, hrest] at h
          cases h
      | ok ls0 =>
        have hr := ih.2 ls0 hrest
        constructor
        · intro e
          simp only [validateLocationList, hval, hrest, List.map_cons, he,
            firstSome_none_cons, hr]
          constructor
          · intro h
            cases h
          · intro h
            cases h
        · intro ls _
          simp only [List.map_cons, he, firstSome_none_cons, hr]

theorem categories_tail_iff (x : JSValue) (e : String)
    (k : Option String → Option String → Option String → CheckinRecord) :
    ((match validateCategoryField x "category" 50 with
      | .error e' => .error e'
      | .ok cat =>
        match validateCategoryField x "categoryGroup" 50 with
        | .error e' => .error e'
        | .ok catGroup =>
          match validateCategoryField x "categoryIcon" 10 with
          | .error e' => .error e'
          | .ok catIcon => .ok (k cat catGroup catIcon)) =
      (.error e : Except String CheckinRecord)) ↔
    firstSome [ruleCategoryError x "category" 50,
      ruleCategoryError x "categoryGroup" 50,
      ruleCategoryError x "categoryIcon" 10] = some e := by
  cases hc1 : validateCategoryField x "category" 50 with
  | error e1 =>
    have h8 : ruleCategoryError x "category" 50 = some e1 := by
      rw [ruleCategoryError, hc1]
      rfl
    simp only [hc1, h8, firstSome_some_cons]
    exact ⟨fun h => by cases h; rfl, fun h => by cases h; rfl⟩
  | ok o1 =>
    have h8 : ruleCategoryError x "category" 50 = none := by
      rw [ruleCategoryError, hc1]
      rfl
    rw [h8, firstSome_none_cons]
    simp only [hc1]
    cases hc2 : validateCategoryField x "categoryGroup" 50 with
    | error e2 =>
      have h9 : ruleCategoryError x "categoryGroup" 50 = some e2 := by
        rw [ruleCategoryError, hc2]
        rfl
      simp only [hc2, h9, firstSome_some_cons]
      exact ⟨fun h => by cases h; rfl, fun h => by cases h; rfl⟩
    | ok o2 =>
      have h9 : ruleCategoryError x "categoryGroup" 50 = none := by
        rw [ruleCategoryError, hc2]
        rfl
      rw [h9, firstSome_none_cons]
      simp only [hc2]
      cases hc3 : validateCategoryField x "categoryIcon" 10 with
      | error e3 =>
        have h10 : ruleCategoryError x "categoryIcon" 10 = some e3 := by
          rw [ruleCategoryError, hc3]
          rfl
        simp only [hc3, h10, firstSome_some_cons]
        exact ⟨fun h => by cases h; rfl, fun h => by cases h; rfl⟩
      | ok o3 =>
        have h10 : ruleCategoryError x "categoryIcon" 10 = none := by
          rw [ruleCategoryError, hc3]
          rfl
        simp only [hc3, h10, firstSome_some_cons, firstSome_none_cons, firstSome_nil]
        exact Iff.intro (fun h => by cases h) (fun h => by cases h)

theorem validateCheckinRecord_error_iff (dp : String → Bool) (x : JSValue) (e : String) :
    validateCheckinRecord dp x = .error e ↔ firstViolationSpec dp x = some e := by
  by_cases hobj : isObjectLike x = true
  case neg =>
    have h1 : ruleNotObject x = some "Record must be an object" := by
      rw [ruleNotObject, if_neg hobj]
    rw [validateCheckinRecord, if_neg hobj, firstViolationSpec, h1, firstSome_some_cons]
    exact ⟨fun h => by cases h; rfl, fun h => by cases h; rfl⟩
  case pos =>
    have h1 : ruleNotObject x = none := by rw [ruleNotObject, if_pos hobj]
    rw [validateCheckinRecord, if_pos hobj, firstViolationSpec, h1, firstSome_none_cons]
    cases htv : asTruthyString (getField x "text") with
    | none =>
      have h2 : ruleMissingText x = some "Record must have a text field" := by
        rw [ruleMissingText, htv]
      have hvt : validateText x = .error "Record must have a text field" := by
        rw [validateText, htv]
      simp only [hvt, h2, firstSome_some_cons]
      exact ⟨fun h => by cases h; rfl, fun h => by cases h; rfl⟩
    | some t =>
      have h2 : ruleMissingText x = none := by rw [ruleMissingText, htv]
      rw [h2, firstSome_none_cons]
      by_cases hlen : t.length > 300
      case pos =>
        have h3 : ruleTextTooLong x = some "text must be 300 characters or less" := by
          simp only [ruleTextTooLong, htv]
          rw [if_pos hlen]
        have hvt : validateText x = .error "text must be 300 characters or less" := by
          simp only [validateText, htv]
          rw [if_pos hlen]
        simp only [hvt, h3, firstSome_some_cons]
        exact ⟨fun h => by cases h; rfl, fun h => by cases h; rfl⟩
      case neg =>
        have h3 : ruleTextTooLong x = none := by
          simp only [ruleTextTooLong, htv]
          rw [if_neg hlen]
        have hvt : validateText x = .ok t := by
          simp only [validateText, htv]
          rw [if_neg hlen]
        rw [h3, firstSome_none_cons]
        simp only [hvt]
        cases hcv : asTruthyString (getField x "createdAt") with
        | none =>
          have h4 : ruleMissingCreatedAt x = some "Record must have a createdAt field" := by
            rw [ruleMissingCreatedAt, hcv]
          have hvc : validateCreatedAt dp x = .error "Record must have a createdAt field" := by
            rw [validateCreatedAt, hcv]
          simp only [hvc, h4, firstSome_some_cons]
          exact ⟨fun h => by cases h; rfl, fun h => by cases h; rfl⟩
        | some c =>
          have h4 : ruleMissingCreatedAt x = none := by rw [ruleMissingCreatedAt, hcv]
          rw [h4, firstSome_none_cons]
          by_cases hdp : dp c = true
          case neg =>
            have h5 : ruleInvalidTimestamp dp x =
                some "createdAt must be a valid ISO timestamp" := by
              simp only [ruleInvalidTimestamp, hcv]
              rw [if_neg hdp]
            have hvc : validateCreatedAt dp x =
                .error "createdAt must be a valid ISO timestamp" := by
              simp only [validateCreatedAt, hcv]
              rw [if_neg hdp]
            simp only [hvc, h5, firstSome_some_cons]
            exact ⟨fun h => by cases h; rfl, fun h => by cases h; rfl⟩
          case pos =>
            have h5 : ruleInvalidTimestamp dp x = none := by
              simp only [ruleInvalidTimestamp, hcv]
              rw [if_pos hdp]
            have hvc : validateCreatedAt dp x = .ok c := by
              simp only [validateCreatedAt, hcv]
              rw [if_pos hdp]
            rw [h5, firstSome_none_cons]
            simp only [hvc]
            cases hgl : getField x "locations" with
            | none =>
              have h6 : ruleLocationsNotArray x = none := by
                rw [ruleLocationsNotArray, hgl]
              have h7 : ruleLocationElements x = none := by
                rw [ruleLocationElements, hgl]
              have hvl : validateLocationsField x = .ok none := by
                rw [validateLocationsField, hgl]
              rw [h6, firstSome_none_cons, h7, firstSome_none_cons]
              simp only [hvl]
              exact categories_tail_iff x e (fun cat catGroup catIcon =>
                { text := t, createdAt := c, locations := none, category := cat,
                  categoryGroup := catGroup, categoryIcon := catIcon })
            | some v =>
              cases v with
              | arr elems =>
                have h6 : ruleLocationsNotArray x = none := by
                  rw [ruleLocationsNotArray, hgl]
                rw [h6, firstSome_none_cons]
                cases hll : validateLocationList elems with
                | error e0 =>
                  have h7 : ruleLocationElements x = some e0 := by
                    rw [ruleLocationElements, hgl]
                    exact ((validateLocationList_firstSome elems).1 e0).mp hll
                  have hvl : validateLocationsField x = .error e0 := by
                    simp only [validateLocationsField, hgl, hll]
                  simp only [hvl, h7, firstSome_some_cons]
                  exact ⟨fun h => by cases h; rfl, fun h => by cases h; rfl⟩
                | ok ls =>
                  have h7 : ruleLocationElements x = none := by
                    rw [ruleLocationElements, hgl]
                    exact (validateLocationList_firstSome elems).2 ls hll
                  have hvl : validateLocationsField x =
                      .ok (if ls.length > 0 then some ls else none) := by
                    simp only [validateLocationsField, hgl, hll]
                  rw [h7, firstSome_none_cons]
                  simp only [hvl]
                  exact categories_tail_iff x e (fun cat catGroup catIcon =>
                    { text := t, createdAt := c,
                      locations := if ls.length > 0 then some ls else none,
                      category := cat, categoryGroup := catGroup,
                      categoryIcon := catIcon })
              | null =>
                have h6 : ruleLocationsNotArray x = some "locations must be an array" := by
                  rw [ruleLocationsNotArray, hgl]
                have hvl : validateLocationsField x = .error "locations must be an array" := by
                  rw [validateLocationsField, hgl]
                simp only [hvl, h6, firstSome_some_cons]
                exact ⟨fun h => by cases h; rfl, fun h => by cases h; rfl⟩
              | bool b =>
                have h6 : ruleLocationsNotArray x = some "locations must be an array" := by
                  rw [ruleLocationsNotArray, hgl]
                have hvl : validateLocationsField x = .error "locations must be an array" := by
                  rw [validateLocationsField, hgl]
                simp only [hvl, h6, firstSome_some_cons]
                exact ⟨fun h => by cases h; rfl, fun h => by cases h; rfl⟩
              | num q =>
                have h6 : ruleLocationsNotArray x = some "locations must be an array" := by
                  rw [ruleLocationsNotArray, hgl]
                have hvl : validateLocationsField x = .error "locations must be an array" := by
                  rw [validateLocationsField, hgl]
                simp only [hvl, h6, firstSome_some_cons]
                exact ⟨fun h => by cases h; rfl, fun h => by cases h; rfl⟩
              | str s =>
                have h6 : ruleLocationsNotArray x = some "locations must be an array" := by
                  rw [ruleLocationsNotArray, hgl]
                have hvl : validateLocationsField x = .error "locations must be an array" := by
                  rw [validateLocationsField, hgl]
                simp only [hvl, h6, firstSome_some_cons]
                exact ⟨fun h => by cases h; rfl, fun h => by cases h; rfl⟩
              | obj fs =>
                have h6 : ruleLocationsNotArray x = some "locations must be an array" := by
                  rw [ruleLocationsNotArray, hgl]
                have hvl : validateLocationsField x = .error "locations must be an array" := by
                  rw [validateLocationsField, hgl]
                simp only [hvl, h6, firstSome_some_cons]
                exact ⟨fun h => by cases h; rfl, fun h => by cases h; rfl⟩

/-- C2: the sequential validator is extensionally the ordered scan of the
spec's rules — for every input, it rejects exactly with the error of the
first violated rule in the fixed order (not-an-object; missing/non-string
text; text over 300; missing/non-string createdAt; unparseable timestamp;
locations not an array; per-element location errors in sequence order;
then category, categoryGroup, categoryIcon), and it accepts exactly when
no rule fires — so violations are never aggregated. -/
theorem validate_first_violation_wins :
    ∀ (dp : String → Bool) (x : JSValue),
      (∀ e, validateCheckinRecord dp x = .error e ↔ firstViolationSpec dp x = some e) ∧
      ((∃ r, validateCheckinRecord dp x = .ok r) ↔ firstViolationSpec dp x = none) := by
  intro dp x
  refine ⟨fun e => validateCheckinRecord_error_iff dp x e, ?_, ?_⟩
  · rintro ⟨r, hr⟩
    cases hfv : firstViolationSpec dp x with
    | none => rfl
    | some e =>
      have hc := (validateCheckinRecord_error_iff dp x e).mpr hfv
      rw [hr] at hc
      cases hc
  · intro hnone
    cases hv : validateCheckinRecord dp x with
    | ok r => exact ⟨r, rfl⟩
    | error e =>
      have hc := (validateCheckinRecord_error_iff dp x e).mp hv
      rw [hnone] at hc
      cases hc

/-- Witness for C2 at a concrete input violating two rules (missing
text, and a categoryIcon over 10 characters): the validator reports only
the first, and the rule scan agrees. -/
theorem validate_first_violation_wins_witness :
    validateCheckinRecord (fun _ => true) (.obj [("categoryIcon", .str "01234567890")]) =
      .error "Record must have a text field" ∧
    firstViolationSpec (fun _ => true) (.obj [("categoryIcon", .str "01234567890")]) =
      some "Record must have a text field" ∧
    ruleCategoryError (.obj [("categoryIcon", .str "01234567890")]) "categoryIcon" 10 =
      some "categoryIcon must be 10 characters or less" := by
  refine ⟨by decide, ?_, by decide⟩
  exact ((validate_first_violation_wins (fun _ => true)
    (.obj [("categoryIcon", .str "01234567890")])).1 "Record must have a text field").mp
    (by decide)
